import Mathlib

/-!
Verification of the sample-registry component and command-line entry point of
the ModernCppPractices repository, against its specification.

The embedding covers:
* `SampleRegistry.hpp` — the singleton registry (`std::map<int, SampleEntry>`
  keyed by the registration order, `registerSample`, `createAll`, `count`,
  and the `REGISTER_SAMPLE` registrar macro);
* `main.cpp` — the command-line entry point, which builds a hard-coded
  `std::vector` of 14 samples and dispatches on `std::stoi(argv[1])`;
* the per-module `REGISTER_SAMPLE` invocations found in the sample sources.

`std::map` is modelled as an association list kept strictly sorted by key,
with `operator[]`-assignment as sorted insert-or-overwrite, which is the
observable semantics of the container used by the source.
-/

namespace ModernCpp

/-- One value of the C++ `SampleRegistry::SampleEntry` struct: a display name
and a factory.  The factory (`std::function<std::unique_ptr<Testable>()>`) is
modelled opaquely as a value of a type `F`; invoking it is modelled separately
(see `createAllFrom`). -/
structure SampleEntry (F : Type) where
  name : String
  factory : F
  deriving DecidableEq, Repr

/-- The registry state: the contents of `std::map<int, SampleEntry> samples_`,
as the association list of its entries in ascending key order. -/
abbrev Registry (F : Type) := List (Int × SampleEntry F)

/-- The registry before any registration: a default-constructed empty map. -/
def emptyRegistry (F : Type) : Registry F := []

/-- `samples_[order] = {name, factory}` on a `std::map`: insert at the sorted
position, overwriting an existing entry with the same key. -/
def insertEntry {F : Type} : Registry F → Int → SampleEntry F → Registry F
  | [], k, e => [(k, e)]
  | (k2, e2) :: rest, k, e =>
    if k < k2 then (k, e) :: (k2, e2) :: rest
    else if k = k2 then (k, e) :: rest
    else (k2, e2) :: insertEntry rest k e

/-- `SampleRegistry::registerSample(name, order, factory)`. -/
def registerSample {F : Type} (reg : Registry F) (name : String) (order : Int)
    (factory : F) : Registry F :=
  insertEntry reg order ⟨name, factory⟩

/-- `SampleRegistry::count()`: the size of the map. -/
def count {F : Type} (reg : Registry F) : Nat := reg.length

/-- The sequence of factories `SampleRegistry::createAll()` invokes, in map
iteration order (ascending key). -/
def createAll {F : Type} (reg : Registry F) : List F :=
  reg.map (fun p => p.2.factory)

/-- An object constructed by one factory invocation inside `createAll`:
`factory` identifies the factory that built it, `serial` is the allocation
identity of the fresh `std::unique_ptr` object (distinct serial = distinct
object). -/
structure Instance (F : Type) where
  factory : F
  serial : Nat
  deriving DecidableEq, Repr

/-- `SampleRegistry::createAll()` with allocation tracking: walks the map in
ascending key order, invokes each entry's factory once, and each invocation
constructs one fresh object (serial numbers allocated from `next` upward).
Returns the constructed instances in order together with the next free
serial. -/
def createAllFrom {F : Type} : Registry F → Nat → List (Instance F) × Nat
  | [], next => ([], next)
  | (_, e) :: rest, next =>
    let r := createAllFrom rest (next + 1)
    (⟨e.factory, next⟩ :: r.1, r.2)

/-- One `registerSample` call, as data: the arguments of one
`REGISTER_SAMPLE(Class, DisplayName, Order)` expansion. -/
structure RegCall (F : Type) where
  name : String
  order : Int
  factory : F
  deriving DecidableEq, Repr

/-- Perform one registration call on a registry state. -/
def doCall {F : Type} (reg : Registry F) (c : RegCall F) : Registry F :=
  registerSample reg c.name c.order c.factory

/-- Perform a sequence of registration calls, left to right (the order in
which static initialization happens to run the registrars). -/
def registerAll {F : Type} (calls : List (RegCall F)) (reg : Registry F) :
    Registry F :=
  calls.foldl doCall reg

/-- The map entry a registration call produces. -/
def toPair {F : Type} (c : RegCall F) : Int × SampleEntry F :=
  (c.order, ⟨c.name, c.factory⟩)

/-- Strict key order on map entries: the iteration order of the
`std::map<int, _>`. -/
def keyLtP {F : Type} (a b : Int × SampleEntry F) : Prop := a.1 < b.1

instance {F : Type} (a b : Int × SampleEntry F) : Decidable (keyLtP a b) :=
  inferInstanceAs (Decidable (a.1 < b.1))

instance {F : Type} : IsAntisymm (Int × SampleEntry F) keyLtP where
  antisymm _ _ h1 h2 := absurd (lt_trans h1 h2) (lt_irrefl _)

instance {F : Type} : IsTrans (Int × SampleEntry F) keyLtP where
  trans _ _ _ h1 h2 := lt_trans h1 h2

/-- The two exception kinds `std::stoi` throws; both derive from
`std::exception`, so both are caught by the `catch (const std::exception&)`
clause in `main`. -/
inductive StoiError
  | invalidArgument
  | outOfRange
  deriving DecidableEq, Repr

instance {ε α : Type} [DecidableEq ε] [DecidableEq α] :
    DecidableEq (Except ε α)
  | .error e1, .error e2 =>
    if h : e1 = e2 then isTrue (by rw [h])
    else isFalse (by intro hx; cases hx; exact h rfl)
  | .error _, .ok _ => isFalse fun hx => Except.noConfusion hx
  | .ok _, .error _ => isFalse fun hx => Except.noConfusion hx
  | .ok a1, .ok a2 =>
    if h : a1 = a2 then isTrue (by rw [h])
    else isFalse (by intro hx; cases hx; exact h rfl)

/-- The whitespace characters skipped by `std::stoi` (C `isspace` in the
default locale): space, tab, newline, vertical tab, form feed, carriage
return. -/
def isCppSpace (c : Char) : Bool :=
  c = ' ' || c = '\t' || c = '\n' || c = Char.ofNat 11 || c = Char.ofNat 12
    || c = '\r'

/-- Value of a non-empty decimal digit string. -/
def digitsToNat (ds : List Char) : Nat :=
  ds.foldl (fun a c => a * 10 + (c.toNat - 48)) 0

/-- `INT_MIN` for the 32-bit `int` of the reference platforms. -/
def intMin : Int := -2147483648

/-- `INT_MAX` for the 32-bit `int` of the reference platforms. -/
def intMax : Int := 2147483647

/-- `std::stoi(s)`: skip leading whitespace, read an optional sign and a
non-empty run of decimal digits.  Throws `invalid_argument` when no digits
follow, `out_of_range` when the value does not fit in `int`; otherwise the
value of the numeric prefix.  Trailing characters after the digits are
ignored. -/
def stoi (s : String) : Except StoiError Int :=
  let cs := s.data.dropWhile (fun c => isCppSpace c)
  let sr : Int × List Char :=
    match cs with
    | '+' :: r => (1, r)
    | '-' :: r => (-1, r)
    | r => (1, r)
  let ds := sr.2.takeWhile (fun c => c.isDigit)
  if ds.isEmpty then .error .invalidArgument
  else
    let v : Int := sr.1 * (digitsToNat ds : Int)
    if v < intMin ∨ intMax < v then .error .outOfRange else .ok v

/-- The fourteen sample classes `main.cpp` constructs into its local
`std::vector<std::unique_ptr<Testable>> samples`, one constructor per
`push_back` line. -/
inductive SampleId
  | raii
  | sfinae
  | crtp
  | pimpl
  | ruleOfFive
  | typeErasure
  | variantVisitor
  | smartPointers
  | exceptionSafety
  | moveSemantics
  | tagDispatching
  | deepShallowCopy
  | copyAndSwapIdiom
  | castSample
  deriving DecidableEq, Repr

/-- Modelled from the spec: `src/14_Cast/CastSample.hpp` is missing from the
sources (only `CastSample.cpp` and the `#include` in `main.cpp` refer to it),
so the literal returned by `CastSample::name()` is not visible.  The value
used here is the label printed by `CastSample.cpp`'s completion banner; no
theorem below depends on this exact literal. -/
def castSampleName : String := "C++ Cast Types"

/-- `Testable::name()` of each sample in `main.cpp`'s vector, copied from the
class headers. -/
def sampleName : SampleId → String
  | .raii => "01_RAII - Resource Acquisition Is Initialization"
  | .sfinae => "02_SFINAE - Substitution Failure Is Not An Error"
  | .crtp => "03_CRTP - Curiously Recurring Template Pattern"
  | .pimpl => "04_PIMPL - Pointer to Implementation"
  | .ruleOfFive => "05_RuleOfFive - Rule of Five"
  | .typeErasure => "06_TypeErasure - Type Erasure"
  | .variantVisitor => "07_VariantVisitor - Variant and Visitor Pattern"
  | .smartPointers => "08_SmartPointers - Smart Pointers"
  | .exceptionSafety => "09_ExceptionSafety - Exception Safety"
  | .moveSemantics => "Move Semantics"
  | .tagDispatching => "Tag Dispatching"
  | .deepShallowCopy => "Deep vs Shallow Copy"
  | .copyAndSwapIdiom => "Copy and Swap Idiom"
  | .castSample => castSampleName

/-- The hard-coded sample vector of `main.cpp`, in `push_back` order. -/
def mainSamples : List SampleId :=
  [.raii, .sfinae, .crtp, .pimpl, .ruleOfFive, .typeErasure, .variantVisitor,
   .smartPointers, .exceptionSafety, .moveSemantics, .tagDispatching,
   .deepShallowCopy, .copyAndSwapIdiom, .castSample]

/-- The observable behaviour of one sample's `run()`: the lines it prints,
and whether it exits by throwing a `std::exception` (the type caught by
`main`'s catch clause). -/
structure RunBehavior where
  lines : List String
  throwsStd : Bool

/-- The observable outcome of one process run of `main`: the lines printed
to standard output, the process exit code, the sample objects constructed
(in construction order), and the samples whose `run()` was entered. -/
structure MainResult where
  out : List String
  exitCode : Int
  constructed : List SampleId
  ran : List SampleId
  deriving DecidableEq, Repr

/-- The message printed for an in-range check failure, built with
`samples.size()` as in the source. -/
def invalidNumberMsg : String :=
  "Invalid sample number. Available samples: 1-" ++ toString mainSamples.length

/-- The message printed from the `catch (const std::exception&)` clause. -/
def invalidArgumentMsg : String := "Invalid argument. Please provide a number."

/-- The listing loop of `main.cpp`: one `i + 1 << ": " << samples[i]->name()`
line per vector element. -/
def listingLines (names : List String) : List String :=
  names.enum.map (fun p => toString (p.1 + 1) ++ ": " ++ p.2)

/-- `main(argc, argv)` from `main.cpp`.  `args` is `argv[1..]`; `rb` gives
each sample's `run()` behaviour.  The vector of 14 samples is constructed
unconditionally before the argument check.  With an argument, `std::stoi`
and the selected `run()` both execute inside the `try` block, so a thrown
`std::exception` from either lands in the catch clause; every path returns
0. -/
def mainRun (rb : SampleId → RunBehavior) (args : List String) : MainResult :=
  match args with
  | [] =>
    { out := "Available samples:" :: listingLines (mainSamples.map sampleName)
        ++ ["Run with: ./main <number>"]
      exitCode := 0
      constructed := mainSamples
      ran := [] }
  | arg :: _ =>
    match stoi arg with
    | .error _ =>
      { out := [invalidArgumentMsg], exitCode := 0,
        constructed := mainSamples, ran := [] }
    | .ok n =>
      if 1 ≤ n ∧ n ≤ (mainSamples.length : Int) then
        let sid := mainSamples.getD (n - 1).toNat SampleId.raii
        let b := rb sid
        if b.throwsStd then
          { out := b.lines ++ [invalidArgumentMsg], exitCode := 0,
            constructed := mainSamples, ran := [sid] }
        else
          { out := b.lines, exitCode := 0,
            constructed := mainSamples, ran := [sid] }
      else
        { out := [invalidNumberMsg], exitCode := 0,
          constructed := mainSamples, ran := [] }

/-- The observable state of one whole process run: the registry contents
after static initialization, and `main`'s result. -/
structure ProcessResult (F : Type) where
  registry : Registry F
  result : MainResult
  deriving DecidableEq, Repr

/-- A whole process run: static initialization performs the module
registration calls (each `SampleRegistrar` constructor), then `main`
executes.  `main.cpp` contains no reference to `SampleRegistry`. -/
def programRun {F : Type} (calls : List (RegCall F))
    (rb : SampleId → RunBehavior) (args : List String) : ProcessResult F :=
  { registry := registerAll calls (emptyRegistry F)
    result := mainRun rb args }

/-- The demonstration modules of the repository: the sample directories
under `src/`. -/
inductive Module
  | mRAII
  | mSFINAE
  | mCRTP
  | mPIMPL
  | mRuleOfFive
  | mTypeErasure
  | mVariantVisitor
  | mSmartPointers
  | mExceptionSafety
  | mMoveSemantics
  | mTagDispatching
  | mDeepShallowCopy
  | mCopyAndSwapIdiom
  | mCast
  | mCastingTypes
  | mThreadSafety
  | mConcepts
  | mCoroutines
  | mSRP
  | mOCP
  | mLSP
  | mISP
  | mDIP
  | mUMLRelationships
  | mThreeWayComparison
  | mProjections
  | mInputOutputStream
  deriving DecidableEq, Repr

/-- All demonstration module directories, in directory order. -/
def allModules : List Module :=
  [.mRAII, .mSFINAE, .mCRTP, .mPIMPL, .mRuleOfFive, .mTypeErasure,
   .mVariantVisitor, .mSmartPointers, .mExceptionSafety, .mMoveSemantics,
   .mTagDispatching, .mDeepShallowCopy, .mCopyAndSwapIdiom, .mCast,
   .mCastingTypes, .mThreadSafety, .mConcepts, .mCoroutines, .mSRP, .mOCP,
   .mLSP, .mISP, .mDIP, .mUMLRelationships, .mThreeWayComparison,
   .mProjections, .mInputOutputStream]

/-- The `REGISTER_SAMPLE(Class, DisplayName, Order)` invocations present in
each module's sources, as `(DisplayName, Order)` pairs.  Six modules
(SmartPointers, TagDispatching, DeepShallowCopy, CopyAndSwapIdiom, both Cast
directories, ThreadSafety) contain none. -/
def moduleRegs : Module → List (String × Int)
  | .mRAII => [("RAII", 1)]
  | .mSFINAE => [("SFINAE", 2)]
  | .mCRTP => [("CRTP", 3)]
  | .mPIMPL => [("Pimpl", 4)]
  | .mRuleOfFive => [("Rule of Five", 5)]
  | .mTypeErasure => [("Type Erasure", 6)]
  | .mVariantVisitor => [("Variant Visitor", 7)]
  | .mSmartPointers => []
  | .mExceptionSafety => [("Exception Safety", 9)]
  | .mMoveSemantics => [("Move Semantics", 10)]
  | .mTagDispatching => []
  | .mDeepShallowCopy => []
  | .mCopyAndSwapIdiom => []
  | .mCast => []
  | .mCastingTypes => []
  | .mThreadSafety => []
  | .mConcepts => [("C++20 Concepts", 16)]
  | .mCoroutines => [("C++20 Coroutines", 17)]
  | .mSRP => [("Single Responsibility Principle", 18)]
  | .mOCP => [("Open/Closed Principle", 19)]
  | .mLSP => [("Liskov Substitution Principle", 20)]
  | .mISP => [("Interface Segregation Principle", 21)]
  | .mDIP => [("Dependency Inversion Principle", 22)]
  | .mUMLRelationships => [("UML Relationships", 23)]
  | .mThreeWayComparison => [("Three-Way Comparison (Spaceship Operator)", 24)]
  | .mProjections => [("Projections (C++20 Ranges)", 25)]
  | .mInputOutputStream => [("Input/Output Stream Extensions", 26)]

/-- All registration calls performed during static initialization across the
repository, tagged with the registering module as the factory value.  The
relative order across translation units is unspecified in C++; since the
keys are pairwise distinct the resulting registry does not depend on it
(proved below for arbitrary permutations), so the directory order used here
is representative. -/
def repoRegCalls : List (RegCall Module) :=
  allModules.flatMap (fun m => (moduleRegs m).map (fun p => ⟨p.1, p.2, m⟩))

/-- The registry contents after the repository's static initialization. -/
def repoRegistry : Registry Module :=
  registerAll repoRegCalls (emptyRegistry Module)

/-- The display names the registry holds, in ascending key order: what a
registry-driven listing would print. -/
def repoRegistryNames : List String :=
  repoRegistry.map (fun p => p.2.name)

/-- A quiet `run()` behaviour: prints nothing, throws nothing.  Used to
instantiate theorems at concrete inputs. -/
def quietRB : SampleId → RunBehavior := fun _ => ⟨[], false⟩

/-- Membership after an insert: every entry of the result is the new entry or
one of the old ones. -/
theorem mem_insertEntry_sub {F : Type} (l : Registry F) (k : Int)
    (e : SampleEntry F) (b : Int × SampleEntry F)
    (hb : b ∈ insertEntry l k e) : b = (k, e) ∨ b ∈ l := by
  induction l with
  | nil =>
    simp only [insertEntry, List.mem_singleton] at hb
    exact Or.inl hb
  | cons hd tl ih =>
    obtain ⟨k2, e2⟩ := hd
    simp only [insertEntry] at hb
    split_ifs at hb with h1 h2
    · rcases List.mem_cons.mp hb with h | h
      · exact Or.inl h
      · exact Or.inr h
    · rcases List.mem_cons.mp hb with h | h
      · exact Or.inl h
      · exact Or.inr (List.mem_cons_of_mem _ h)
    · rcases List.mem_cons.mp hb with h | h
      · exact Or.inr (h ▸ List.mem_cons_self _ _)
      · rcases ih h with h3 | h3
        · exact Or.inl h3
        · exact Or.inr (List.mem_cons_of_mem _ h3)

/-- Inserting preserves strict sortedness by key. -/
theorem sorted_insertEntry {F : Type} (l : Registry F) (k : Int)
    (e : SampleEntry F) (hs : l.Sorted keyLtP) :
    (insertEntry l k e).Sorted keyLtP := by
  induction l with
  | nil => simp [insertEntry]
  | cons hd tl ih =>
    obtain ⟨k2, e2⟩ := hd
    rw [List.sorted_cons] at hs
    obtain ⟨hhd, htl⟩ := hs
    simp only [insertEntry]
    split_ifs with h1 h2
    · rw [List.sorted_cons]
      refine ⟨?_, List.sorted_cons.mpr ⟨hhd, htl⟩⟩
      intro b hb
      rcases List.mem_cons.mp hb with h | h
      · subst h; exact h1
      · exact lt_trans h1 (hhd b h)
    · rw [List.sorted_cons]
      exact ⟨fun b hb => h2 ▸ hhd b hb, htl⟩
    · rw [List.sorted_cons]
      refine ⟨?_, ih htl⟩
      intro b hb
      rcases mem_insertEntry_sub tl k e b hb with h | h
      · subst h
        exact lt_of_le_of_ne (not_lt.mp h1) fun hx => h2 hx.symm
      · exact hhd b h

/-- Inserting a fresh key is, up to permutation, just consing the new entry. -/
theorem insertEntry_perm {F : Type} (l : Registry F) (k : Int)
    (e : SampleEntry F) (hk : k ∉ l.map Prod.fst) :
    (insertEntry l k e).Perm ((k, e) :: l) := by
  induction l with
  | nil => simp [insertEntry]
  | cons hd tl ih =>
    obtain ⟨k2, e2⟩ := hd
    simp only [List.map_cons, List.mem_cons] at hk
    push_neg at hk
    simp only [insertEntry]
    split_ifs with h1 h2
    · exact List.Perm.refl _
    · exact absurd h2 hk.1
    · exact (List.Perm.cons _ (ih hk.2)).trans (List.Perm.swap _ _ _)

/-- Key membership after an insert. -/
theorem mem_keys_insertEntry {F : Type} (l : Registry F) (k k3 : Int)
    (e : SampleEntry F) :
    k3 ∈ (insertEntry l k e).map Prod.fst ↔ k3 = k ∨ k3 ∈ l.map Prod.fst := by
  induction l with
  | nil => simp [insertEntry]
  | cons hd tl ih =>
    obtain ⟨k2, e2⟩ := hd
    simp only [insertEntry]
    split_ifs with h1 h2
    · simp
    · subst h2; simp
    · simp only [List.map_cons, List.mem_cons, ih]
      tauto

/-- A whole registration sequence preserves strict sortedness by key. -/
theorem registerAll_sorted {F : Type} (calls : List (RegCall F))
    (reg : Registry F) (hs : reg.Sorted keyLtP) :
    (registerAll calls reg).Sorted keyLtP := by
  induction calls generalizing reg with
  | nil => exact hs
  | cons c cs ih =>
    exact ih _ (sorted_insertEntry _ _ _ hs)

/-- Key membership after a whole registration sequence. -/
theorem mem_keys_registerAll {F : Type} (calls : List (RegCall F))
    (reg : Registry F) (k : Int) :
    k ∈ (registerAll calls reg).map Prod.fst ↔
      k ∈ calls.map RegCall.order ∨ k ∈ reg.map Prod.fst := by
  induction calls generalizing reg with
  | nil => simp [registerAll]
  | cons c cs ih =>
    show k ∈ (registerAll cs (doCall reg c)).map Prod.fst ↔ _
    rw [ih]
    simp only [doCall, registerSample, mem_keys_insertEntry, List.map_cons,
      List.mem_cons]
    tauto

/-- When all keys are fresh and pairwise distinct, registering is, up to
permutation, appending the new entries. -/
theorem registerAll_perm {F : Type} (calls : List (RegCall F))
    (reg : Registry F) (hnd : (calls.map RegCall.order).Nodup)
    (hfresh : ∀ c ∈ calls, c.order ∉ reg.map Prod.fst) :
    (registerAll calls reg).Perm (calls.map toPair ++ reg) := by
  induction calls generalizing reg with
  | nil => simp [registerAll]
  | cons c cs ih =>
    simp only [List.map_cons, List.nodup_cons] at hnd
    have hfc : c.order ∉ reg.map Prod.fst := hfresh c (List.mem_cons_self _ _)
    have hp1 : (insertEntry reg c.order ⟨c.name, c.factory⟩).Perm
        (toPair c :: reg) := insertEntry_perm reg c.order _ hfc
    have hstep : (registerAll cs (doCall reg c)).Perm
        (cs.map toPair ++ (doCall reg c)) := by
      refine ih (doCall reg c) hnd.2 ?_
      intro c2 hc2 hmem
      rw [show doCall reg c = insertEntry reg c.order ⟨c.name, c.factory⟩ from rfl,
        mem_keys_insertEntry] at hmem
      rcases hmem with h | h
      · exact hnd.1 (h ▸ List.mem_map_of_mem RegCall.order hc2)
      · exact hfresh c2 (List.mem_cons_of_mem _ hc2) h
    show (registerAll cs (doCall reg c)).Perm _
    refine hstep.trans ?_
    refine ((List.Perm.append_left (cs.map toPair) hp1).trans ?_)
    exact List.perm_middle

/-- Keys of a strictly key-sorted registry are pairwise distinct. -/
theorem keys_nodup_of_sorted {F : Type} (l : Registry F)
    (hs : l.Sorted keyLtP) : (l.map Prod.fst).Nodup := by
  have hp : (l.map Prod.fst).Pairwise (· < ·) := by
    rw [List.pairwise_map]
    exact hs
  exact hp.imp ne_of_lt

/-- Re-registering the same key overwrites: the earlier insert is erased. -/
theorem insertEntry_collapse {F : Type} (l : Registry F) (k : Int)
    (e1 e2 : SampleEntry F) :
    insertEntry (insertEntry l k e1) k e2 = insertEntry l k e2 := by
  induction l with
  | nil => simp [insertEntry]
  | cons hd tl ih =>
    obtain ⟨k2, e2x⟩ := hd
    simp only [insertEntry]
    split_ifs with h1 h2
    · simp [insertEntry, h1, lt_irrefl]
    · subst h2
      simp [insertEntry, lt_irrefl]
    · simp [insertEntry, h1, h2, ih]

/-- `count()` after a registration sequence on a fresh registry equals the
number of distinct keys used, not the number of calls. -/
theorem count_registerAll_empty {F : Type} (calls : List (RegCall F)) :
    count (registerAll calls (emptyRegistry F)) =
      (calls.map RegCall.order).toFinset.card := by
  have hs : (registerAll calls (emptyRegistry F)).Sorted keyLtP :=
    registerAll_sorted _ _ (by simp [emptyRegistry])
  have hnd := keys_nodup_of_sorted _ hs
  have hset : ((registerAll calls (emptyRegistry F)).map Prod.fst).toFinset
      = (calls.map RegCall.order).toFinset := by
    ext k
    simp only [List.mem_toFinset, mem_keys_registerAll]
    simp [emptyRegistry]
  calc count (registerAll calls (emptyRegistry F))
      = ((registerAll calls (emptyRegistry F)).map Prod.fst).length := by
        simp [count]
    _ = ((registerAll calls (emptyRegistry F)).map Prod.fst).toFinset.card :=
        (List.toFinset_card_of_nodup hnd).symm
    _ = _ := by rw [hset]

/-- The serial counter advances by exactly one per registered entry: each
`createAll` call performs one construction per entry. -/
theorem createAllFrom_snd {F : Type} (reg : Registry F) (next : Nat) :
    (createAllFrom reg next).2 = next + reg.length := by
  induction reg generalizing next with
  | nil => simp [createAllFrom]
  | cons hd tl ih =>
    obtain ⟨k, e⟩ := hd
    simp only [createAllFrom, List.length_cons, ih]
    omega

/-- The factories invoked by one `createAll` call, in order, are exactly the
registered factories in map order. -/
theorem createAllFrom_factories {F : Type} (reg : Registry F) (next : Nat) :
    (createAllFrom reg next).1.map Instance.factory = createAll reg := by
  induction reg generalizing next with
  | nil => simp [createAllFrom, createAll]
  | cons hd tl ih =>
    obtain ⟨k, e⟩ := hd
    simp [createAllFrom, createAll] at ih ⊢
    exact ih (next + 1)

/-- The serial numbers handed out by one `createAll` call are the consecutive
block starting at the incoming counter. -/
theorem createAllFrom_serials {F : Type} (reg : Registry F) (next : Nat) :
    (createAllFrom reg next).1.map Instance.serial =
      List.range' next reg.length := by
  induction reg generalizing next with
  | nil => simp [createAllFrom]
  | cons hd tl ih =>
    obtain ⟨k, e⟩ := hd
    simp [createAllFrom, List.range'] at ih ⊢
    exact ih (next + 1)

/-- Every instance constructed by a `createAll` call has its serial inside
that call's block. -/
theorem createAllFrom_serial_bound {F : Type} (reg : Registry F) (next : Nat)
    (i : Instance F) (hi : i ∈ (createAllFrom reg next).1) :
    next ≤ i.serial ∧ i.serial < next + reg.length := by
  have : i.serial ∈ (createAllFrom reg next).1.map Instance.serial :=
    List.mem_map_of_mem _ hi
  rw [createAllFrom_serials] at this
  exact List.mem_range'_1.mp this

/-- `main` returns 0 on every control path: the `return 0` at the end is the
only return, and both `std::stoi` and the selected `run()` execute inside
the `try` block whose handler falls through to it. -/
theorem mainRun_exitCode_zero (rb : SampleId → RunBehavior)
    (args : List String) : (mainRun rb args).exitCode = 0 := by
  match args with
  | [] => rfl
  | arg :: rest =>
    simp only [mainRun]
    cases stoi arg with
    | error e => rfl
    | ok n =>
      dsimp only
      by_cases h : 1 ≤ n ∧ n ≤ (mainSamples.length : Int)
      · rw [if_pos h]
        cases (rb (mainSamples.getD (n - 1).toNat SampleId.raii)).throwsStd
          <;> rfl
      · rw [if_neg h]

/-- All 14 vector samples are constructed before the argument check, on
every path. -/
theorem mainRun_constructed (rb : SampleId → RunBehavior)
    (args : List String) : (mainRun rb args).constructed = mainSamples := by
  match args with
  | [] => rfl
  | arg :: rest =>
    simp only [mainRun]
    cases stoi arg with
    | error e => rfl
    | ok n =>
      dsimp only
      by_cases h : 1 ≤ n ∧ n ≤ (mainSamples.length : Int)
      · rw [if_pos h]
        cases (rb (mainSamples.getD (n - 1).toNat SampleId.raii)).throwsStd
          <;> rfl
      · rw [if_neg h]

/-- When `std::stoi` throws, `main` prints the invalid-argument message and
runs nothing. -/
theorem mainRun_of_error (rb : SampleId → RunBehavior) (arg : String)
    (e : StoiError) (hs : stoi arg = .error e) :
    mainRun rb [arg] = ⟨[invalidArgumentMsg], 0, mainSamples, []⟩ := by
  simp only [mainRun, hs]

/-- When the parsed number is out of the vector's range, `main` prints the
invalid-number message and runs nothing. -/
theorem mainRun_of_out_of_range (rb : SampleId → RunBehavior) (arg : String)
    (n : Int) (hs : stoi arg = .ok n)
    (hn : ¬(1 ≤ n ∧ n ≤ (mainSamples.length : Int))) :
    mainRun rb [arg] = ⟨[invalidNumberMsg], 0, mainSamples, []⟩ := by
  simp only [mainRun, hs]
  rw [if_neg hn]

/-- When the parsed number is in range, `main` enters exactly the `run()` of
the vector element at that 1-based position. -/
theorem mainRun_ran_of_ok (rb : SampleId → RunBehavior) (arg : String)
    (n : Int) (hs : stoi arg = .ok n) (h1 : 1 ≤ n)
    (h2 : n ≤ (mainSamples.length : Int)) :
    (mainRun rb [arg]).ran = [mainSamples.getD (n - 1).toNat SampleId.raii] := by
  simp only [mainRun, hs]
  rw [if_pos ⟨h1, h2⟩]
  cases (rb (mainSamples.getD (n - 1).toNat SampleId.raii)).throwsStd <;> rfl

/-- `main` observes its argument only through `std::stoi`. -/
theorem mainRun_arg_congr (rb : SampleId → RunBehavior) (a b : String)
    (h : stoi a = stoi b) : mainRun rb [a] = mainRun rb [b] := by
  simp only [mainRun, h]

/-- Claim C1, counterexample.  Claim: with no argument the executable prints
the ordered list of registered demonstrations — the entries held by the
sample registry, in ascending key order.  False: at the concrete process run
with the repository's registrations and no argument, the lines printed are
those of `main.cpp`'s hard-coded 14-sample vector, which differ from the
registry-held entries (20 entries with different display names). -/
theorem c1_listing_not_registry :
    (programRun repoRegCalls quietRB []).result.out ≠
      "Available samples:" :: listingLines repoRegistryNames ++
        ["Run with: ./main <number>"] := by
  decide

/-- Claim C1, amended: with no argument the executable prints the hard-coded
vector of 14 samples (independent of the registry) as one
`<1-based index>: <name()>` line per vector element, followed by the usage
hint, and returns exit code 0 without running any sample. -/
theorem c1_lists_hardcoded_vector (rb : SampleId → RunBehavior) :
    (mainRun rb []).out =
      ["Available samples:",
       "1: 01_RAII - Resource Acquisition Is Initialization",
       "2: 02_SFINAE - Substitution Failure Is Not An Error",
       "3: 03_CRTP - Curiously Recurring Template Pattern",
       "4: 04_PIMPL - Pointer to Implementation",
       "5: 05_RuleOfFive - Rule of Five",
       "6: 06_TypeErasure - Type Erasure",
       "7: 07_VariantVisitor - Variant and Visitor Pattern",
       "8: 08_SmartPointers - Smart Pointers",
       "9: 09_ExceptionSafety - Exception Safety",
       "10: Move Semantics",
       "11: Tag Dispatching",
       "12: Deep vs Shallow Copy",
       "13: Copy and Swap Idiom",
       "14: " ++ castSampleName,
       "Run with: ./main <number>"] ∧
    (mainRun rb []).exitCode = 0 ∧ (mainRun rb []).ran = [] := by
  refine ⟨?_, rfl, rfl⟩
  show "Available samples:" :: listingLines (mainSamples.map sampleName)
      ++ ["Run with: ./main <number>"] = _
  decide

/-- Claim C2: for every sequence of `registerSample` calls with pairwise
distinct keys, the registry (hence `createAll`'s iteration) is strictly
ascending by key, holds exactly the registered entries, and is identical for
every permutation of the registration sequence. -/
theorem c2_registry_sorted_and_order_independent {F : Type}
    (calls calls2 : List (RegCall F))
    (hnd : (calls.map RegCall.order).Nodup) (hperm : calls.Perm calls2) :
    (registerAll calls (emptyRegistry F)).Sorted keyLtP ∧
    (registerAll calls (emptyRegistry F)).Perm (calls.map toPair) ∧
    registerAll calls2 (emptyRegistry F) =
      registerAll calls (emptyRegistry F) := by
  have hs1 : (registerAll calls (emptyRegistry F)).Sorted keyLtP :=
    registerAll_sorted _ _ (by simp [emptyRegistry])
  have hp1 : (registerAll calls (emptyRegistry F)).Perm (calls.map toPair) := by
    have := registerAll_perm calls (emptyRegistry F) hnd
      (by simp [emptyRegistry])
    simpa [emptyRegistry] using this
  have hnd2 : (calls2.map RegCall.order).Nodup :=
    ((hperm.map RegCall.order).nodup_iff).mp hnd
  have hs2 : (registerAll calls2 (emptyRegistry F)).Sorted keyLtP :=
    registerAll_sorted _ _ (by simp [emptyRegistry])
  have hp2 : (registerAll calls2 (emptyRegistry F)).Perm (calls2.map toPair) := by
    have := registerAll_perm calls2 (emptyRegistry F) hnd2
      (by simp [emptyRegistry])
    simpa [emptyRegistry] using this
  refine ⟨hs1, hp1, ?_⟩
  exact List.eq_of_perm_of_sorted
    (hp2.trans ((hperm.map toPair).symm.trans hp1.symm)) hs2 hs1

/-- Claim C2, witness: the spec's own test vector — keys registered in the
order 5, 1, 3 and in a permuted order — yields one identical, strictly
ascending registry. -/
theorem c2_witness :
    (registerAll
        [⟨"five", 5, 50⟩, ⟨"one", 1, 10⟩, ⟨"three", 3, 30⟩]
        (emptyRegistry Nat)).Sorted keyLtP ∧
    (registerAll
        [⟨"five", 5, 50⟩, ⟨"one", 1, 10⟩, ⟨"three", 3, 30⟩]
        (emptyRegistry Nat)).Perm
      (([⟨"five", 5, 50⟩, ⟨"one", 1, 10⟩, ⟨"three", 3, 30⟩] :
          List (RegCall Nat)).map toPair) ∧
    registerAll [⟨"one", 1, 10⟩, ⟨"three", 3, 30⟩, ⟨"five", 5, 50⟩]
        (emptyRegistry Nat) =
      registerAll [⟨"five", 5, 50⟩, ⟨"one", 1, 10⟩, ⟨"three", 3, 30⟩]
        (emptyRegistry Nat) :=
  c2_registry_sorted_and_order_independent
    [⟨"five", 5, 50⟩, ⟨"one", 1, 10⟩, ⟨"three", 3, 30⟩]
    [⟨"one", 1, 10⟩, ⟨"three", 3, 30⟩, ⟨"five", 5, 50⟩]
    (by decide) (by decide)

/-- Claim C3, counterexample.  Claim: every demonstration module calls the
registration entry point exactly once at static-initialization time.  False:
the SmartPointers module's sources contain no `REGISTER_SAMPLE` invocation
at all (likewise TagDispatching, DeepShallowCopy, CopyAndSwapIdiom, the two
Cast directories and ThreadSafety). -/
theorem c3_smartpointers_never_registers :
    ¬((moduleRegs Module.mSmartPointers).length = 1) := by
  decide

/-- Claim C3, amended: every module registers at most once; the modules that
do register use pairwise-distinct integer keys; so the registry ends up with
one entry per registering module — 20 entries for the 27 module directories,
not one per module. -/
theorem c3_registering_modules :
    (∀ m : Module, (moduleRegs m).length ≤ 1) ∧
    (repoRegCalls.map RegCall.order).Nodup ∧
    count repoRegistry = repoRegCalls.length ∧
    repoRegCalls.length = 20 ∧ allModules.length = 27 := by
  refine ⟨fun m => ?_, by decide, by decide, by decide, by decide⟩
  cases m <;> decide

/-- With an in-range parse and the quiet run behaviour, `main` prints exactly
the (empty) demonstration output. -/
theorem mainRun_out_of_ok_quiet (arg : String) (n : Int)
    (hs : stoi arg = .ok n) (h1 : 1 ≤ n)
    (h2 : n ≤ (mainSamples.length : Int)) :
    (mainRun quietRB [arg]).out = [] := by
  simp only [mainRun, hs]
  rw [if_pos ⟨h1, h2⟩]
  rfl

/-- Claim C4, counterexample.  Claim: with N registered samples, arguments
"1" through str(N) each construct and run the sample at that rank of the
ascending-key order.  False: the repository registers N = 20 samples, but
`main` dispatches over its hard-coded 14-sample vector, so argument "15"
(which is within 1..N) runs nothing and prints the invalid-number message —
and every invocation constructs all 14 vector samples, registry aside. -/
theorem c4_reg_count_exceeds_dispatch_range :
    count repoRegistry = 20 ∧
    (mainRun quietRB ["15"]).ran = [] ∧
    (mainRun quietRB ["15"]).out =
      ["Invalid sample number. Available samples: 1-14"] ∧
    (mainRun quietRB ["15"]).constructed = mainSamples := by
  refine ⟨by decide, by decide, by decide, by decide⟩

/-- Claim C4, amended: dispatch bounds come from the hard-coded 14-sample
vector, not the registry.  All 14 vector samples are constructed up front on
every invocation; arguments "0", "-1" and "15" print the invalid-number
message and run nothing; arguments "1" through "14" run exactly the vector
sample at that 1-based position. -/
theorem c4_dispatch_hardcoded_bounds (rb : SampleId → RunBehavior) (n : Nat)
    (h1 : 1 ≤ n) (h2 : n ≤ 14) :
    (mainRun rb [toString n]).ran = [mainSamples.getD (n - 1) SampleId.raii] ∧
    (∀ s : String, (mainRun rb [s]).constructed = mainSamples) ∧
    (mainRun rb ["0"]).ran = [] ∧
    (mainRun rb ["0"]).out = [invalidNumberMsg] ∧
    (mainRun rb ["-1"]).ran = [] ∧
    (mainRun rb ["-1"]).out = [invalidNumberMsg] ∧
    (mainRun rb ["15"]).ran = [] ∧
    (mainRun rb ["15"]).out = [invalidNumberMsg] := by
  have h0 := mainRun_of_out_of_range rb "0" 0 (by decide) (by decide)
  have hm1 := mainRun_of_out_of_range rb "-1" (-1) (by decide) (by decide)
  have h15 := mainRun_of_out_of_range rb "15" 15 (by decide) (by decide)
  refine ⟨?_, fun s => mainRun_constructed rb [s],
    by rw [h0], by rw [h0], by rw [hm1], by rw [hm1], by rw [h15], by rw [h15]⟩
  have hs : stoi (toString n) = .ok (n : Int) := by
    interval_cases n <;> decide
  have hran := mainRun_ran_of_ok rb (toString n) (n : Int) hs
    (by exact_mod_cast h1) (by
      have : (mainSamples.length : Int) = 14 := by decide
      omega)
  rw [hran]
  have hidx : ((n : Int) - 1).toNat = n - 1 := by omega
  rw [hidx]

/-- Claim C4, witness: argument "3" runs exactly the third vector sample,
and the boundary arguments behave as stated. -/
theorem c4_witness :
    1 ≤ 3 ∧ 3 ≤ 14 ∧
    ((mainRun quietRB [toString 3]).ran =
        [mainSamples.getD (3 - 1) SampleId.raii] ∧
      (∀ s : String, (mainRun quietRB [s]).constructed = mainSamples) ∧
      (mainRun quietRB ["0"]).ran = [] ∧
      (mainRun quietRB ["0"]).out = [invalidNumberMsg] ∧
      (mainRun quietRB ["-1"]).ran = [] ∧
      (mainRun quietRB ["-1"]).out = [invalidNumberMsg] ∧
      (mainRun quietRB ["15"]).ran = [] ∧
      (mainRun quietRB ["15"]).out = [invalidNumberMsg]) :=
  ⟨by decide, by decide,
    c4_dispatch_hardcoded_bounds quietRB 3 (by decide) (by decide)⟩

/-- Claim C5: registering a second entry under an already-used key silently
overwrites the first — the registry state, and hence everything `createAll`
reaches, is as if only the second registration had happened — and `count()`
returns the number of distinct keys of a registration sequence, not the
number of calls.  (No error path exists: `registerSample` is total.) -/
theorem c5_duplicate_key_overwrites {F : Type} (reg : Registry F) (k : Int)
    (n1 n2 : String) (f1 f2 : F) (calls : List (RegCall F)) :
    registerSample (registerSample reg n1 k f1) n2 k f2 =
      registerSample reg n2 k f2 ∧
    createAll (registerSample (registerSample reg n1 k f1) n2 k f2) =
      createAll (registerSample reg n2 k f2) ∧
    count (registerAll calls (emptyRegistry F)) =
      (calls.map RegCall.order).toFinset.card := by
  have h := insertEntry_collapse reg k ⟨n1, f1⟩ ⟨n2, f2⟩
  exact ⟨h, congrArg createAll h, count_registerAll_empty calls⟩

/-- Claim C6: one `createAll` call invokes every registered factory exactly
once (so two calls make 2×N invocations for N entries), and the instances
returned by the two calls are pairwise distinct objects — nothing is cached
or reused across calls. -/
theorem c6_fresh_instances_per_call {F : Type} [DecidableEq F]
    (reg : Registry F) (hnd : (createAll reg).Nodup) :
    (∀ f ∈ createAll reg,
       ((createAllFrom reg 0).1.map Instance.factory).count f = 1 ∧
       (((createAllFrom reg 0).1 ++
           (createAllFrom reg (createAllFrom reg 0).2).1).map
         Instance.factory).count f = 2) ∧
    ∀ i ∈ (createAllFrom reg 0).1,
      ∀ j ∈ (createAllFrom reg (createAllFrom reg 0).2).1,
        i.serial ≠ j.serial := by
  constructor
  · intro f hf
    have hmap1 : (createAllFrom reg 0).1.map Instance.factory =
        createAll reg := createAllFrom_factories reg 0
    have hmap2 := createAllFrom_factories reg (createAllFrom reg 0).2
    refine ⟨?_, ?_⟩
    · rw [hmap1]
      exact List.count_eq_one_of_mem hnd hf
    · rw [List.map_append, hmap1, hmap2, List.count_append,
        List.count_eq_one_of_mem hnd hf]
  · intro i hi j hj
    have hbi := createAllFrom_serial_bound reg 0 i hi
    have hbj := createAllFrom_serial_bound reg (createAllFrom reg 0).2 j hj
    have hsnd := createAllFrom_snd reg 0
    rw [hsnd] at hbj
    omega

/-- Claim C6, witness: the repository's registry, whose 20 factories are
pairwise distinct. -/
theorem c6_witness :
    (createAll repoRegistry).Nodup ∧
    ((∀ f ∈ createAll repoRegistry,
        ((createAllFrom repoRegistry 0).1.map Instance.factory).count f = 1 ∧
        (((createAllFrom repoRegistry 0).1 ++
            (createAllFrom repoRegistry
              (createAllFrom repoRegistry 0).2).1).map
          Instance.factory).count f = 2) ∧
      ∀ i ∈ (createAllFrom repoRegistry 0).1,
        ∀ j ∈ (createAllFrom repoRegistry
            (createAllFrom repoRegistry 0).2).1,
          i.serial ≠ j.serial) :=
  ⟨by decide, c6_fresh_instances_per_call repoRegistry (by decide)⟩

/-- Claim C7: a registry with zero registrations yields an empty sequence
from `createAll` (not an error — both operations are total) and `count()`
returns 0. -/
theorem c7_empty_registry (F : Type) :
    createAll (emptyRegistry F) = [] ∧ count (emptyRegistry F) = 0 :=
  ⟨rfl, rfl⟩

/-- Claim C8: with a valid in-range sample number the process exits with
code 0, whatever the selected `run()` prints and even if it throws a
`std::exception` (the `try` block covers the call and the handler falls
through to `return 0`). -/
theorem c8_exit_code_zero (rb : SampleId → RunBehavior) (arg : String)
    (n : Int) (_hs : stoi arg = .ok n) (_h1 : 1 ≤ n)
    (_h2 : n ≤ (mainSamples.length : Int)) :
    (mainRun rb [arg]).exitCode = 0 :=
  mainRun_exitCode_zero rb [arg]

/-- Claim C8, witness: argument "3" with a run behaviour that prints and
then throws still exits 0. -/
theorem c8_witness :
    stoi "3" = .ok 3 ∧ (1 : Int) ≤ 3 ∧ (3 : Int) ≤ (mainSamples.length : Int) ∧
    (mainRun (fun _ => ⟨["partial output"], true⟩) ["3"]).exitCode = 0 :=
  ⟨by decide, by decide, by decide,
    c8_exit_code_zero (fun _ => ⟨["partial output"], true⟩) "3" 3
      (by decide) (by decide) (by decide)⟩

/-- Claim C9: the CLI's observable behaviour is a constant function of the
registry contents.  For any two sets of registration calls (over any factory
types) and the same argument vector, the `main` results — output lines, exit
code, constructed and run samples — are identical, because `main.cpp` never
queries `SampleRegistry` and uses its fixed vector of 14 samples. -/
theorem c9_output_independent_of_registry {F G : Type}
    (calls1 : List (RegCall F)) (calls2 : List (RegCall G))
    (rb : SampleId → RunBehavior) (args : List String) :
    (programRun calls1 rb args).result = (programRun calls2 rb args).result ∧
    mainSamples.length = 14 :=
  ⟨rfl, rfl⟩

/-- Claim C10, counterexample.  Claim: the invalid-argument message is
printed only when no leading integer can be parsed at all.  False: a string
of 40 nines has a non-empty leading digit run (a leading integer in the
plain sense), yet `std::stoi` throws `out_of_range`, which the same
`catch (const std::exception&)` clause turns into the invalid-argument
message, and no sample runs. -/
theorem c10_overflow_still_invalid_argument :
    ("9999999999999999999999999999999999999999".data.dropWhile
        (fun c => isCppSpace c)).takeWhile (fun c => c.isDigit) ≠ [] ∧
    (mainRun quietRB ["9999999999999999999999999999999999999999"]).out =
      [invalidArgumentMsg] ∧
    (mainRun quietRB ["9999999999999999999999999999999999999999"]).ran =
      [] := by
  refine ⟨by decide, by decide, by decide⟩

/-- Claim C10, amended: an argument with trailing non-numeric text is not
rejected — `std::stoi` takes the numeric prefix and the CLI behaves exactly
as on the bare number ("2abc" dispatches sample 2) — and the
invalid-argument message appears exactly when `std::stoi` fails: no leading
digits, or a numeric prefix outside the `int` range. -/
theorem c10_numeric_prefix_dispatch (rb : SampleId → RunBehavior) :
    mainRun rb ["2abc"] = mainRun rb ["2"] ∧
    (mainRun rb ["2abc"]).ran = [SampleId.sfinae] ∧
    (∀ s : String, (mainRun quietRB [s]).out = [invalidArgumentMsg] ↔
      ∃ e, stoi s = .error e) := by
  refine ⟨mainRun_arg_congr rb _ _ (by decide), ?_, ?_⟩
  · have hr := mainRun_ran_of_ok rb "2abc" 2 (by decide) (by decide)
      (by decide)
    rw [hr]
    decide
  · intro s
    constructor
    · intro hout
      rcases hst : stoi s with e | n
      · exact ⟨e, rfl⟩
      · exfalso
        by_cases hrange : 1 ≤ n ∧ n ≤ (mainSamples.length : Int)
        · rw [mainRun_out_of_ok_quiet s n hst hrange.1 hrange.2] at hout
          exact absurd hout (by decide)
        · rw [mainRun_of_out_of_range quietRB s n hst hrange] at hout
          exact absurd hout (by decide)
    · rintro ⟨e, he⟩
      rw [mainRun_of_error quietRB s e he]

end ModernCpp
